import Mathlib

/-!
Verification development for the `mesoscaler` landmark-registration engine.

The Python source is shallowly embedded as follows:

* real scalars (Python/NumPy `float64`) are modelled as `ℚ`; every concrete
  decimal literal appearing in the code or in test inputs is an exact binary64
  value, so the rational model of a concrete comparison agrees with the float
  comparison (all compared literals here are far apart relative to 1 ulp);
* the one place the code narrows precision — the `np.float32` destination
  array in `Alignment.from_dict` — is modelled explicitly by `f32round`;
* NumPy/OpenCV calls made by the code are modelled by their documented
  semantics (`np.linalg.lstsq` by the normal equations, exact in the
  full-rank case; `cv2.invertAffineTransform` by its source formula with the
  `det == 0 → 0` guard); raster warping/resampling (`cv2.warpAffine`,
  `cv2.resize`) is numeric image processing with no bearing on any claim and
  is passed in as an explicit function argument where needed;
* fallible Python code returns `Except PyErr`; the concrete Python exception
  class raised on each path is recorded in the `PyErr` constructor.
-/

set_option maxRecDepth 8000

attribute [local semireducible] Rat.add Rat.mul Rat.sub Rat.inv

namespace Mesoscaler

/-- Python-level errors observable from the embedded code.  The constructors
name the concrete exception classes the code (or the libraries it calls)
raises.  The final two constructors are the error categories named by the
specification's taxonomy (section 7); no class of either name is defined
anywhere in the repository, they exist here only so that statements about the
spec's wording can be written down. -/
inductive PyErr where
  | valueError (msg : String)
  | assertionError
  | indexError
  | keyError (key : String)
  | linAlgError
  | attributeError
  | unsupportedOperationError
  | dataShapeError
  deriving DecidableEq

/-- Decidable equality of `Except` results, used to evaluate the embedded
fallible functions on concrete inputs. -/
instance exceptDecEq {ε α : Type} [DecidableEq ε] [DecidableEq α] :
    DecidableEq (Except ε α) := fun a b =>
  match a, b with
  | .ok x, .ok y =>
    match decEq x y with
    | isTrue h => isTrue (congrArg Except.ok h)
    | isFalse h => isFalse (fun hh => h (Except.ok.inj hh))
  | .ok _, .error _ => isFalse (fun hh => Except.noConfusion hh)
  | .error _, .ok _ => isFalse (fun hh => Except.noConfusion hh)
  | .error e, .error f =>
    match decEq e f with
    | isTrue h => isTrue (congrArg Except.error h)
    | isFalse h => isFalse (fun hh => h (Except.error.inj hh))

/-- Fuel-driven floor of the base-2 logarithm of a natural number
(`log2fuel fuel n = ⌊log2 n⌋` whenever `n ≤ fuel` and `n ≥ 1`).  Structural
recursion on the fuel keeps it kernel-computable. -/
def log2fuel : ℕ → ℕ → ℕ
  | 0, _ => 0
  | fuel + 1, n => if n ≤ 1 then 0 else 1 + log2fuel fuel (n / 2)

/-- Floor of the base-2 logarithm of a natural number. -/
def natLog2 (n : ℕ) : ℕ := log2fuel n n

/-- Floor of the base-2 logarithm of a positive rational: for
`a = p/q` in lowest terms the value is `⌊log2 p⌋ - ⌊log2 q⌋`, corrected down
by one when that estimate overshoots. -/
def qlog2 (a : ℚ) : ℤ :=
  let c : ℤ := (natLog2 a.num.natAbs : ℤ) - (natLog2 a.den : ℤ)
  if (2 : ℚ) ^ c ≤ a then c else c - 1

/-- Round a rational to the nearest integer, ties to even (the IEEE-754
default rounding used by NumPy float casts). -/
def rne (m : ℚ) : ℤ :=
  let fl := ⌊m⌋
  let fr : ℚ := m - (fl : ℚ)
  if fr < 1 / 2 then fl
  else if 1 / 2 < fr then fl + 1
  else if fl % 2 = 0 then fl else fl + 1

/-- Rounding of a real (binary64) value to IEEE-754 binary32, i.e. the value
written into the `np.float32` matrix that `Alignment.from_dict` allocates:
round to nearest even at 24 significand bits.  Exponent-range effects
(overflow and subnormals) are not modelled; all values in the claims are well
inside the normal binary32 range. -/
def f32round (q : ℚ) : ℚ :=
  if q = 0 then 0
  else
    let a : ℚ := if q < 0 then -q else q
    let s : ℚ := if q < 0 then -1 else 1
    let e : ℤ := qlog2 a
    let n : ℤ := rne (a * (2 : ℚ) ^ (23 - e))
    s * (n : ℚ) * (2 : ℚ) ^ (e - 23)

/-- A 2x3 "compact" affine matrix (the canonical form in
`mesoscaler.landmarks.affine`), with the entries named after the columns of
the persisted alignment table: row `x` is `(xx, xy, xc)`, row `y` is
`(yx, yy, yc)`, `xc`/`yc` being the translation components. -/
structure Mat23 where
  xx : ℚ
  xy : ℚ
  xc : ℚ
  yx : ℚ
  yy : ℚ
  yc : ℚ
  deriving DecidableEq

/-- Application of an affine matrix to a single 2-D point: the homogeneous
product computed row-wise by `affine.warp_points`. -/
def applyPt (w : Mat23) (p : ℚ × ℚ) : ℚ × ℚ :=
  (w.xx * p.1 + w.xy * p.2 + w.xc, w.yx * p.1 + w.yy * p.2 + w.yc)

namespace Affine

/-- affine.warp_points: maps an N x 2 point array through a warp matrix. -/
def warp_points (pts : List (ℚ × ℚ)) (warp : Mat23) : List (ℚ × ℚ) :=
  pts.map (applyPt warp)

/-- affine.invert, which calls `cv2.invertAffineTransform`.  OpenCV computes
`D = det` of the linear part, replaces `1/D` by `0` when `D == 0`, and builds
the inverse linear part together with the negated back-transformed
translation. -/
def invert (m : Mat23) : Mat23 :=
  let det := m.xx * m.yy - m.xy * m.yx
  let d : ℚ := if det = 0 then 0 else det⁻¹
  let axx := m.yy * d
  let axy := -m.xy * d
  let ayx := -m.yx * d
  let ayy := m.xx * d
  ⟨axx, axy, -(axx * m.xc + axy * m.yc), ayx, ayy, -(ayx * m.xc + ayy * m.yc)⟩

/-- Determinant of a 3x3 matrix given row-wise. -/
def det3 (a b c d e f g h i : ℚ) : ℚ :=
  a * (e * i - f * h) - b * (d * i - f * g) + c * (d * h - e * g)

/-- Solution of the 6-parameter affine least-squares system solved by
`np.linalg.lstsq` inside `affine.estimate`.  The interleaved system of
`affine.estimate` decouples into one 3x3 normal-equation system per output
coordinate, both sharing the normal matrix `M = Σ vᵢvᵢᵀ` for
`vᵢ = (xᵢ, yᵢ, 1)`; the rows below are Cramer solutions of those systems and
agree with NumPy's least-squares solution whenever `M` is invertible.  When
`M` is singular NumPy returns the minimum-norm solution of the rank-deficient
system; that branch is modelled as the zero matrix (no claim depends on the
numeric output of a degenerate estimate). -/
def lstsq (src dst : List (ℚ × ℚ)) : Mat23 :=
  let sxx := (src.map (fun p => p.1 * p.1)).sum
  let sxy := (src.map (fun p => p.1 * p.2)).sum
  let syy := (src.map (fun p => p.2 * p.2)).sum
  let sx := (src.map (fun p => p.1)).sum
  let sy := (src.map (fun p => p.2)).sum
  let n : ℚ := src.length
  let pr := src.zip dst
  let bx1 := (pr.map (fun p => p.1.1 * p.2.1)).sum
  let bx2 := (pr.map (fun p => p.1.2 * p.2.1)).sum
  let bx3 := (pr.map (fun p => p.2.1)).sum
  let by1 := (pr.map (fun p => p.1.1 * p.2.2)).sum
  let by2 := (pr.map (fun p => p.1.2 * p.2.2)).sum
  let by3 := (pr.map (fun p => p.2.2)).sum
  let dd := det3 sxx sxy sx sxy syy sy sx sy n
  if dd = 0 then ⟨0, 0, 0, 0, 0, 0⟩
  else
    ⟨det3 bx1 sxy sx bx2 syy sy bx3 sy n / dd,
     det3 sxx bx1 sx sxy bx2 sy sx bx3 n / dd,
     det3 sxx sxy bx1 sxy syy bx2 sx sy bx3 / dd,
     det3 by1 sxy sx by2 syy sy by3 sy n / dd,
     det3 sxx by1 sx sxy by2 sy sx by3 n / dd,
     det3 sxx sxy by1 sxy syy by2 sx sy by3 / dd⟩

end Affine

/-- A 2-D NumPy array of reals.  The column count is carried explicitly so
that an empty array still has a shape (NumPy distinguishes an empty `(0, 5)`
array from an empty `(0, 2)` one); well-formed values have every row of
length `cols`. -/
structure NDArr where
  cols : ℕ
  data : List (List ℚ)
  deriving DecidableEq

/-- affine.estimate.  The source asserts `dst.shape[0] == N`
(an `AssertionError` on mismatch), then builds the `(N, 2K+8)` block matrix
and reshapes it to `(N, 2, 6)` — a NumPy `ValueError` unless `N = 0` or the
per-point width `K` is 2 (a reshape only checks the total element count, so
an empty array passes for any width) — and finally calls `np.linalg.lstsq`,
which raises `LinAlgError` unless the right-hand side has `2N` rows, i.e.
unless `N = 0` or `dst` is 2 wide. -/
def Affine.estimate (src dst : NDArr) : Except PyErr Mat23 :=
  let N := src.data.length
  if dst.data.length ≠ N then .error .assertionError
  else if ¬(N = 0 ∨ src.cols = 2) then .error (.valueError "cannot reshape array")
  else if ¬(N * dst.cols = 2 * N) then .error .linAlgError
  else
    .ok (Affine.lstsq
      (src.data.map (fun r => (r.getD 0 0, r.getD 1 0)))
      (dst.data.map (fun r => (r.getD 0 0, r.getD 1 0))))

/-- Packaging of an N x 2 point list as the NumPy array handed to
`affine.estimate` (the `.xy` slice of a landmark set). -/
def toXYArr (pts : List (ℚ × ℚ)) : NDArr :=
  ⟨2, pts.map (fun p => [p.1, p.2])⟩

/-- A single named landmark: `base.Landmark`, whose `coords` row holds the
`x`/`y` coordinates and the detection likelihood `p`. -/
structure Landmark where
  name : String
  x : ℚ
  y : ℚ
  p : ℚ
  deriving DecidableEq

/-- base.Landmarks: an ordered collection of named landmarks.  The dataclass
stores a `names` tuple plus an `(N, 3)` coords array; the row list below
carries exactly that data. -/
abbrev Landmarks := List Landmark

namespace Landmarks

/-- Landmarks.names property. -/
def names (l : Landmarks) : List String := l.map Landmark.name

/-- Landmarks.ordered: `[self[key] for key in keys if key in self.names]`,
where `self[key]` returns the landmark at the first index of `key`. -/
def ordered (l : Landmarks) (keys : List String) : Landmarks :=
  keys.filterMap (fun k => l.find? (fun lm => lm.name == k))

/-- Landmarks.xy, the `coords[:, :2]` slice.  NumPy quirk preserved: an empty
`Landmarks` (as produced by `Landmarks.ordered` on no matches) stores
`coords = np.array([])`, a 1-D array, on which the 2-D slice raises
`IndexError`. -/
def xy (l : Landmarks) : Except PyErr (List (ℚ × ℚ)) :=
  if l.isEmpty then .error .indexError
  else .ok (l.map (fun lm => (lm.x, lm.y)))

/-- Landmarks.affine_warp: warps the `x`/`y` columns through the matrix and
keeps names and likelihoods (the `len == 0` early return of the source is the
identity on the empty list here). -/
def affine_warp (l : Landmarks) (w : Mat23) : Landmarks :=
  l.map (fun lm =>
    ⟨lm.name, (applyPt w (lm.x, lm.y)).1, (applyPt w (lm.x, lm.y)).2, lm.p⟩)

/-- Landmarks.from_single_landmarks: re-stacks a list of `Landmark` rows.
The source calls `np.stack(rows, axis=0)`, which raises `ValueError` when the
list is empty. -/
def from_single_landmarks (items : List Landmark) : Except PyErr Landmarks :=
  if items.isEmpty then .error (.valueError "need at least one array to stack")
  else .ok items

end Landmarks

/-- landmarks.reference.LEFT_LANDMARK_NAMES. -/
def LEFT_LANDMARK_NAMES : List String := ["left", "top left", "bottom left"]

/-- landmarks.reference.MIDDLE_LANDMARK_NAMES. -/
def MIDDLE_LANDMARK_NAMES : List String := ["top center", "bregma", "lambda"]

/-- landmarks.reference.RIGHT_LANDMARK_NAMES. -/
def RIGHT_LANDMARK_NAMES : List String := ["right", "top right", "bottom right"]

namespace Landmarks

/-- base.Landmarks.left: the landmarks reordered along the left-plus-middle
taxonomy names. -/
def left (l : Landmarks) : Landmarks :=
  ordered l (LEFT_LANDMARK_NAMES ++ MIDDLE_LANDMARK_NAMES)

/-- base.Landmarks.right: the landmarks reordered along the middle-plus-right
taxonomy names. -/
def right (l : Landmarks) : Landmarks :=
  ordered l (MIDDLE_LANDMARK_NAMES ++ RIGHT_LANDMARK_NAMES)

/-- base.Landmarks.middle. -/
def middle (l : Landmarks) : Landmarks := ordered l MIDDLE_LANDMARK_NAMES

/-- base.Landmarks.without_middle: reorders along the set's own names with
the middle taxonomy names removed. -/
def without_middle (l : Landmarks) : Landmarks :=
  ordered l ((names l).filter (fun n => !MIDDLE_LANDMARK_NAMES.contains n))

end Landmarks

/-- defaults.LANDMARK_LIKELIHOOD_THRESHOLD = 0.9999. -/
def LANDMARK_LIKELIHOOD_THRESHOLD : ℚ := 9999 / 10000

/-- alignment.Pairing: a target and a reference landmark set surviving
validation, index-aligned. -/
structure Pairing where
  target : Landmarks
  reference : Landmarks
  deriving DecidableEq

namespace Pairing

/-- Pairing.names (the target-side names). -/
def names (p : Pairing) : List String := Landmarks.names p.target

/-- Pairing.__len__ (`len(self.target)`). -/
def len (p : Pairing) : ℕ := p.target.length

/-- Pairing.ordered: reorders both sides along the same key list. -/
def ordered (p : Pairing) (keys : List String) : Pairing :=
  ⟨Landmarks.ordered p.target keys, Landmarks.ordered p.reference keys⟩

/-- Pairing.left: restriction to the left-plus-middle taxonomy names. -/
def left (p : Pairing) : Pairing :=
  p.ordered (LEFT_LANDMARK_NAMES ++ MIDDLE_LANDMARK_NAMES)

/-- Pairing.right: restriction to the right-plus-middle taxonomy names (note
the source lists the right names first here, unlike `Landmarks.right`). -/
def right (p : Pairing) : Pairing :=
  p.ordered (RIGHT_LANDMARK_NAMES ++ MIDDLE_LANDMARK_NAMES)

/-- Pairing.middle. -/
def middle (p : Pairing) : Pairing := p.ordered MIDDLE_LANDMARK_NAMES

/-- Pairing.without_middle. -/
def without_middle (p : Pairing) : Pairing :=
  p.ordered ((p.names).filter (fun n => !MIDDLE_LANDMARK_NAMES.contains n))

end Pairing

/-- alignment.validate_landmarks: zips the target and reference landmarks,
keeps a pair exactly when the target likelihood is strictly above the
threshold (defaulting to `LANDMARK_LIKELIHOOD_THRESHOLD`), and re-stacks both
survivor lists — which raises `ValueError` (from `np.stack` on an empty
list) when no pair survives. -/
def validate_landmarks (target reference : Landmarks) (likelihood_threshold : Option ℚ) :
    Except PyErr Pairing := do
  let thr := likelihood_threshold.getD LANDMARK_LIKELIHOOD_THRESHOLD
  let kept := (target.zip reference).filter (fun tr => decide (thr < tr.1.p))
  let vt ← Landmarks.from_single_landmarks (kept.map Prod.fst)
  let vr ← Landmarks.from_single_landmarks (kept.map Prod.snd)
  .ok ⟨vt, vr⟩

/-- The `_align` helper inside `alignment.estimate_warp_matrix`:
`affine.estimate(pair.reference.xy, pair.target.xy)`. -/
def alignPair (pair : Pairing) : Except PyErr Mat23 := do
  let src ← Landmarks.xy pair.reference
  let dst ← Landmarks.xy pair.target
  Affine.estimate (toXYArr src) (toXYArr dst)

/-- The matrix produced by a successful `_align` call on a pairing (the
least-squares estimate mapping the reference points onto the target
points). -/
def warpOf (pair : Pairing) : Mat23 :=
  Affine.lstsq
    (pair.reference.map (fun lm => (lm.x, lm.y)))
    (pair.target.map (fun lm => (lm.x, lm.y)))

/-- base.Alignment: warp matrices for the two hemispheres plus the flag
recording whether they were estimated separately. -/
structure Alignment where
  left : Mat23
  right : Mat23
  separate : Bool := true
  deriving DecidableEq

/-- alignment.estimate_warp_matrix.  When the caller leaves `separate_sides`
unset, hemisphere-separate estimation is chosen exactly when both the left
and the right restrictions keep more than 2 correspondences after excluding
the middle names; the separate branch estimates from the two restrictions,
the joint branch estimates once from the full pairing and duplicates the
matrix. -/
def estimate_warp_matrix (validated_pair : Pairing) (separate_sides : Option Bool) :
    Except PyErr Alignment :=
  let l := validated_pair.left
  let r := validated_pair.right
  let sep := separate_sides.getD
    (decide (2 < l.without_middle.len ∧ 2 < r.without_middle.len))
  if sep then do
    let lw ← alignPair l
    let rw ← alignPair r
    .ok ⟨lw, rw, true⟩
  else do
    let w ← alignPair validated_pair
    .ok ⟨w, w, false⟩

namespace Alignment

/-- base.Alignment.invert: raises `ValueError` (with the message below,
which the source assembles from two adjacent string literals with no
separator) for hemisphere-separate alignments, and otherwise inverts the
single shared matrix via `affine.invert`. -/
def invert (a : Alignment) : Except PyErr Alignment :=
  if a.separate ≠ false then
    .error (.valueError
      "inverting separate-hemispheres alignment is not supporteduse `separate_sides=True` when performing alignment")
  else
    .ok ⟨Affine.invert a.left, Affine.invert a.left, false⟩

/-- base.Alignment.warp_points: warps the non-middle left subset through the
left matrix and the non-middle right subset through the right matrix; when
`separate` the middle subset is warped through both matrices and the two
results averaged coordinate-wise, otherwise it is warped once through the
left (single shared) matrix; the parts are finally re-stacked in
left-middle-right order — raising `ValueError` (from `np.stack`) if all
three parts are empty. -/
def warp_points (a : Alignment) (lm : Landmarks) : Except PyErr Landmarks :=
  let leftPart := Landmarks.without_middle (Landmarks.left lm)
  let middlePart := Landmarks.middle lm
  let rightPart := Landmarks.without_middle (Landmarks.right lm)
  let leftW := Landmarks.affine_warp leftPart a.left
  let rightW := Landmarks.affine_warp rightPart a.right
  let middleW :=
    if a.separate then
      let mleft := Landmarks.affine_warp middlePart a.left
      let mright := Landmarks.affine_warp middlePart a.right
      (mleft.zip mright).map (fun uv =>
        ⟨uv.1.name, (uv.1.x + uv.2.x) / 2, (uv.1.y + uv.2.y) / 2, (uv.1.p + uv.2.p) / 2⟩)
    else Landmarks.affine_warp middlePart a.left
  Landmarks.from_single_landmarks (leftW ++ middleW ++ rightW)

end Alignment

/-- One row of the persisted alignment table: the boolean flag plus the 12
matrix components, in the column order `write_alignment_table` produces. -/
structure AlignRow where
  is_separate : Bool
  left_xx : ℚ
  left_xy : ℚ
  left_xc : ℚ
  left_yx : ℚ
  left_yy : ℚ
  left_yc : ℚ
  right_xx : ℚ
  right_xy : ℚ
  right_xc : ℚ
  right_yx : ℚ
  right_yy : ℚ
  right_yc : ℚ
  deriving DecidableEq

/-- base.Alignment.to_dict: reads the 12 matrix entries out as Python floats
(an exact widening) next to the flag. -/
def Alignment.to_dict (a : Alignment) : AlignRow :=
  ⟨a.separate,
   a.left.xx, a.left.xy, a.left.xc, a.left.yx, a.left.yy, a.left.yc,
   a.right.xx, a.right.xy, a.right.xc, a.right.yx, a.right.yy, a.right.yc⟩

/-- base.Alignment.from_dict: reconstructs each matrix by assigning the row
values into a freshly allocated `np.float32` array — each entry passes
through the binary32 rounding `f32round`. -/
def Alignment.from_dict (r : AlignRow) : Alignment :=
  ⟨⟨f32round r.left_xx, f32round r.left_xy, f32round r.left_xc,
    f32round r.left_yx, f32round r.left_yy, f32round r.left_yc⟩,
   ⟨f32round r.right_xx, f32round r.right_xy, f32round r.right_xc,
    f32round r.right_yx, f32round r.right_yy, f32round r.right_yc⟩,
   r.is_separate⟩

/-- base.write_alignment_table: one `to_dict` row per alignment.  The CSV
text layer is modelled as the identity on rows: `pandas.to_csv` writes each
float with `repr` (the shortest round-tripping decimal) and `read_csv`
parses it back to the identical binary64 value, and the boolean column
round-trips as the literals `True`/`False`. -/
def write_alignment_table (alignment : List Alignment) : List AlignRow :=
  alignment.map Alignment.to_dict

/-- base.load_alignment_table: rebuilds one Alignment per table row via
`from_dict`. -/
def load_alignment_table (tab : List AlignRow) : List Alignment :=
  tab.map Alignment.from_dict

/-- A raster mask: a NumPy `uint8` image as a row list of pixel values (the
uint8 range is enforced at each arithmetic operation by reduction mod 256,
matching NumPy wraparound). -/
abbrev Mask := List (List ℕ)

/-- The `astype(np.uint8)` cast: every entry reduced mod 256. -/
def maskU8 (m : Mask) : Mask := m.map (fun row => row.map (fun v => v % 256))

/-- Element-wise NumPy addition of two `uint8` arrays: per pixel
`(a + b) mod 256` (uint8 wraparound, not saturation and not boolean
union). -/
def maskAddU8 (a b : Mask) : Mask :=
  (a.zip b).map (fun rc =>
    (rc.1.zip rc.2).map (fun vw => (vw.1 % 256 + vw.2 % 256) % 256))

/-- rois.ROI: one named region-of-interest raster of an image.  The
hemisphere tag is the loosely-typed string the source uses. -/
structure ROI where
  name : String
  side : String
  AllenID : ℤ
  description : String
  mask : Mask
  deriving DecidableEq

/-- rois.ROISet: the ROI collection of one frame (or of the reference
atlas). -/
structure ROISet where
  image_name : String
  frame_idx : ℤ
  total_frames : ℤ
  rois : List ROI
  deriving DecidableEq

/-- ROISet.names: the ROI names in registration order with duplicates
removed. -/
def ROISet.names (r : ROISet) : List String :=
  r.rois.foldl (fun acc roi => if acc.contains roi.name then acc else acc ++ [roi.name]) []

/-- An HDF5 attribute value as used by the ROISet container: a string, an
integer, or the JSON-serialized list of ROI names. -/
inductive HAttr where
  | s (v : String)
  | i (v : ℤ)
  | names (v : List String)
  deriving DecidableEq

/-- An HDF5 node: a dataset carrying attributes and raster data, or a group
carrying attributes and named children. -/
inductive HNode where
  | ds (attrs : List (String × HAttr)) (data : Mask)
  | gp (attrs : List (String × HAttr)) (children : List (String × HNode))

/-- Lookup of a child node by name inside a group's child list. -/
def getChild (cs : List (String × HNode)) (k : String) : Option HNode :=
  (cs.find? (fun c => c.1 == k)).map Prod.snd

/-- Creation-or-replacement of a child node (h5py `del` plus
`create_dataset`/`create_group` keyed by name). -/
def setChild (cs : List (String × HNode)) (k : String) (v : HNode) :
    List (String × HNode) :=
  if cs.any (fun c => c.1 == k) then
    cs.map (fun c => if c.1 == k then (k, v) else c)
  else cs ++ [(k, v)]

/-- Lookup of an attribute by key (`entry.attrs[k]`, raising `KeyError` when
absent). -/
def getAttr (attrs : List (String × HAttr)) (k : String) : Except PyErr HAttr :=
  match attrs.find? (fun a => a.1 == k) with
  | some a => .ok a.2
  | none => .error (.keyError k)

/-- rois.ROI._write_hdf.  The ROI's dataset is created under a `left`/`right`
subgroup of `parent` for sided ROIs and directly under `parent` otherwise;
`parent` here is the child list the caller passes (in `ROISet.to_hdf` the
source passes the file root).  The `AllenID` attribute is written only when
it is non-negative, and the mask is written `astype(np.uint8)`. -/
def ROI.write_hdf (roi : ROI) (parent : List (String × HNode)) :
    List (String × HNode) :=
  let entry : HNode := .ds
    ([("name", .s roi.name), ("side", .s roi.side)]
      ++ (if 0 ≤ roi.AllenID then [("AllenID", .i roi.AllenID)] else [])
      ++ [("description", .s roi.description)])
    (maskU8 roi.mask)
  if roi.side = "left" ∨ roi.side = "right" then
    let hemi := match getChild parent roi.side with
      | some (.gp a ch) => (a, ch)
      | _ => (([] : List (String × HAttr)), ([] : List (String × HNode)))
    setChild parent roi.side (.gp hemi.1 (setChild hemi.2 roi.name entry))
  else
    setChild parent roi.name entry

/-- rois.ROISet.to_hdf.  The root group receives the three identity
attributes; a `rois` child group is created and given the JSON names list as
an attribute; each ROI is then written with `roi._write_hdf(out, ...)` —
`out` being the file root, not the `rois` group. -/
def ROISet.to_hdf (r : ROISet) : HNode :=
  .gp
    [("image_name", .s r.image_name), ("frame_idx", .i r.frame_idx),
     ("total_frames", .i r.total_frames)]
    (r.rois.foldl (fun cs roi => ROI.write_hdf roi cs)
      [("rois", .gp [("names", .names r.names)] [])])

/-- rois.ROI.load_hdf: reads the identity attributes of a dataset
(`AllenID` defaulting to 0 when absent) and the raster `astype(bool)` —
modelled as the 0/1 image (NumPy booleans) of the stored data. -/
def ROI.load_hdf (entry : HNode) : Except PyErr ROI :=
  match entry with
  | .gp _ _ => .error (.valueError "expected a dataset")
  | .ds attrs data => do
    let nm ← getAttr attrs "name"
    let sd ← getAttr attrs "side"
    let aid : ℤ := match (attrs.find? (fun a => a.1 == "AllenID")).map Prod.snd with
      | some (.i v) => v
      | _ => 0
    let dsc ← getAttr attrs "description"
    match nm, sd, dsc with
    | .s nm, .s sd, .s dsc =>
      .ok ⟨nm, sd, aid, dsc,
        data.map (fun row => row.map (fun v => if v = 0 then 0 else 1))⟩
    | _, _, _ => .error (.valueError "unexpected attribute type")

/-- rois.ROISet.load_hdf: reads the three identity attributes from the root,
opens the `rois` group, decodes its `names` attribute, and loads
`rois_group[name]` for each name — h5py raises `KeyError` when a name has no
entry directly under the `rois` group. -/
def ROISet.load_hdf (f : HNode) : Except PyErr ROISet :=
  match f with
  | .ds _ _ => .error (.valueError "expected a group")
  | .gp attrs children => do
    let inm ← getAttr attrs "image_name"
    let fidx ← getAttr attrs "frame_idx"
    let tot ← getAttr attrs "total_frames"
    match getChild children "rois" with
    | none => .error (.keyError "rois")
    | some (.ds _ _) => .error (.valueError "expected a group")
    | some (.gp rattrs rchildren) => do
      let nms ← getAttr rattrs "names"
      match inm, fidx, tot, nms with
      | .s inm, .i fidx, .i tot, .names nms => do
        let rois ← nms.mapM (fun n =>
          match getChild rchildren n with
          | none => Except.error (PyErr.keyError n)
          | some nd => ROI.load_hdf nd)
        .ok ⟨inm, fidx, tot, rois⟩
      | _, _, _, _ => .error (.valueError "unexpected attribute type")

/-- One row of the per-frame metadata table handed to ROI generation.  Every
field the code reads is optional: `row.to_dict()[key]` raises `KeyError`
when the column is absent. -/
structure MetaRow where
  image : Option String
  frame : Option ℤ
  totalFrames : Option ℤ
  width : Option ℤ
  height : Option ℤ

/-- Dictionary access `metadata[key]` on a metadata row. -/
def getMeta {α : Type} (v : Option α) (key : String) : Except PyErr α :=
  match v with
  | some x => .ok x
  | none => .error (.keyError key)

/-- The interpolation methods `generate_rois_single` chooses between when
resizing. -/
inductive Interp where
  | cubic
  | area
  deriving DecidableEq

/-- base.Alignment.warp_image: `cv2.warpAffine(image, getattr(self, side),
dsize=VIDEO_FRAME_SIZE)`.  The raster resampling itself is the `warpFn`
argument (OpenCV numerics are external to every claim); `getattr` selects
the matrix and raises `AttributeError` for any side other than
`left`/`right`. -/
def Alignment.warp_image (warpFn : Mat23 → Mask → Mask) (a : Alignment)
    (image : Mask) (side : String) : Except PyErr Mask :=
  if side = "left" then .ok (warpFn a.left image)
  else if side = "right" then .ok (warpFn a.right image)
  else .error .attributeError

/-- List indexing `l[i]` with the Python `IndexError` on overrun. -/
def pyGet {α : Type} (l : List α) (i : ℕ) : Except PyErr α :=
  match l.get? i with
  | some v => .ok v
  | none => .error .indexError

/-- The target-shape expression at the top of `rois.generate_rois_single`:
`(metadata['Width'], metadata['Height']) if bool(resize) else None`. -/
def shapeOf (metadata : MetaRow) (resize : Bool) : Except PyErr (Option (ℤ × ℤ)) :=
  if resize then do
    let w ← getMeta metadata.width "Width"
    let h ← getMeta metadata.height "Height"
    pure (some (w, h))
  else pure none

/-- rois.generate_rois_single.  The reference and outline atlases are
explicit arguments (their `None` defaults load package assets from disk —
external I/O outside this model), as are the two OpenCV resampling
primitives `warpFn` (`cv2.warpAffine`) and `resizeFn` (`cv2.resize`, given
the chosen interpolation method).  Evaluation order matches the source:
target shape from the metadata (via `shapeOf`, under `resize`), the warped
outline ROIs, the warped reference ROIs, the merged outline built from
`warped_outlines[0]` and `warped_outlines[1]` by uint8 addition, then the
three identity fields from the metadata. -/
def generate_rois_single (warpFn : Mat23 → Mask → Mask)
    (resizeFn : ℤ × ℤ → Interp → Mask → Mask)
    (alignment : Alignment) (metadata : MetaRow)
    (reference outline : ROISet) (resize : Bool) : Except PyErr ROISet := do
  let shape ← shapeOf metadata resize
  let warpROI : ROI → Except PyErr ROI := fun roi => do
    let mask ← Alignment.warp_image warpFn alignment roi.mask roi.side
    let mask := match shape with
      | some s =>
        resizeFn s (if 512 ≤ max s.1 s.2 then Interp.cubic else Interp.area) mask
      | none => mask
    .ok ⟨roi.name, roi.side, roi.AllenID, roi.description, mask⟩
  let warped_outlines ← outline.rois.mapM warpROI
  let warped_rois ← reference.rois.mapM warpROI
  let o0 ← pyGet warped_outlines 0
  let o1 ← pyGet warped_outlines 1
  let merged : ROI :=
    ⟨"outline", "both", -1,
     "the expected outline of the brain for this ROI set",
     maskAddU8 o0.mask o1.mask⟩
  let inm ← getMeta metadata.image "Image"
  let fr ← getMeta metadata.frame "Frame"
  let tf ← getMeta metadata.totalFrames "TotalFrames"
  .ok ⟨inm, fr, tf, merged :: (warped_outlines ++ warped_rois)⟩

/-- rois.generate_rois_batch: iterates the metadata rows in order, indexing
the alignment sequence by the row index, and calls `generate_rois_single`
per row with no exception handling — the first raising row propagates and
aborts the whole batch. -/
def generate_rois_batch (warpFn : Mat23 → Mask → Mask)
    (resizeFn : ℤ × ℤ → Interp → Mask → Mask)
    (alignment : List Alignment) (metadata : List MetaRow)
    (reference outline : ROISet) (resize : Bool) : Except PyErr (List ROISet) :=
  metadata.enum.mapM (fun ir => do
    let a ← pyGet alignment ir.1
    generate_rois_single warpFn resizeFn a ir.2 reference outline resize)

/-- rois.load_reference_outlines, parameterized by the two grayscale images
decoded from the package's PNG assets (the file reads are external I/O).
Each outline mask is `(image > 0).astype(np.uint8) * 255`, hence every pixel
is exactly 0 or 255. -/
def load_reference_outlines (left_outline right_outline : List (List ℚ)) : ROISet :=
  let mk : String → List (List ℚ) → ROI := fun side img =>
    ⟨"outline", side, -1,
     "the expected outline of the brain for this ROI set",
     img.map (fun row => row.map (fun v => (if 0 < v then 1 else 0) * 255))⟩
  ⟨"__reference__", -1, -1, [mk "left" left_outline, mk "right" right_outline]⟩

/-- Binary32 rounding applied to every entry of a matrix (the effect of
`Alignment.from_dict` on one hemisphere). -/
def f32mat (m : Mat23) : Mat23 :=
  ⟨f32round m.xx, f32round m.xy, f32round m.xc,
   f32round m.yx, f32round m.yy, f32round m.yc⟩

/-- Binary32 rounding applied to both matrices of an alignment; the flag is
untouched. -/
def f32align (a : Alignment) : Alignment :=
  ⟨f32mat a.left, f32mat a.right, a.separate⟩

/-- A landmark-name lookup succeeds exactly when the name occurs in the
set. -/
theorem find?_name_isSome (l : Landmarks) (k : String) :
    (l.find? (fun lm => lm.name == k)).isSome = true ↔ k ∈ Landmarks.names l := by
  unfold Landmarks.names
  rw [List.find?_isSome]
  constructor
  · rintro ⟨x, hx, hpx⟩
    have hn : x.name = k := by simpa using hpx
    exact hn ▸ List.mem_map_of_mem Landmark.name hx
  · intro hk
    rcases List.mem_map.mp hk with ⟨x, hx, rfl⟩
    exact ⟨x, hx, by simp⟩

/-- The names of a reordered landmark set are the requested keys filtered to
those present. -/
theorem names_ordered (l : Landmarks) (keys : List String) :
    Landmarks.names (Landmarks.ordered l keys)
      = keys.filter (fun k => (l.find? (fun lm => lm.name == k)).isSome) := by
  induction keys with
  | nil => rfl
  | cons k ks ih =>
    simp only [Landmarks.ordered, List.filterMap_cons, List.filter_cons] at ih ⊢
    cases hf : l.find? (fun lm => lm.name == k) with
    | none =>
      show Landmarks.names (List.filterMap (fun key => l.find? (fun x => x.name == key)) ks)
          = List.filter (fun key => (l.find? (fun x => x.name == key)).isSome) ks
      exact ih
    | some lm =>
      have hname : lm.name = k := by simpa using List.find?_some hf
      show lm.name :: Landmarks.names (List.filterMap (fun key => l.find? (fun x => x.name == key)) ks)
          = k :: List.filter (fun key => (l.find? (fun x => x.name == key)).isSome) ks
      rw [hname, ih]

/-- Reordering an empty landmark set yields the empty set. -/
theorem ordered_nil (keys : List String) : Landmarks.ordered [] keys = [] := by
  induction keys with
  | nil => rfl
  | cons k ks ih =>
    simp only [Landmarks.ordered, List.filterMap_cons, List.find?_nil] at ih ⊢
    exact ih

/-- Reordering two landmark sets with the same name sequence keeps the same
length (the lookup outcome per key depends only on the names). -/
theorem length_ordered_congr (l1 l2 : Landmarks) (keys : List String)
    (h : Landmarks.names l1 = Landmarks.names l2) :
    (Landmarks.ordered l1 keys).length = (Landmarks.ordered l2 keys).length := by
  have h1 := congrArg List.length (names_ordered l1 keys)
  have h2 := congrArg List.length (names_ordered l2 keys)
  simp only [Landmarks.names, List.length_map] at h1 h2
  rw [h1, h2]
  congr 1
  apply List.filter_congr
  intro k _
  have e1 := find?_name_isSome l1 k
  have e2 := find?_name_isSome l2 k
  rw [h] at e1
  cases hb1 : (l1.find? (fun lm => lm.name == k)).isSome <;>
    cases hb2 : (l2.find? (fun lm => lm.name == k)).isSome <;>
      simp_all

/-- Membership in the names of a reordered set implies membership in the
keys. -/
theorem mem_names_ordered (l : Landmarks) (keys : List String) (n : String)
    (h : n ∈ Landmarks.names (Landmarks.ordered l keys)) : n ∈ keys := by
  rw [names_ordered] at h
  exact (List.mem_filter.mp h).1

/-- Warping preserves the landmark names. -/
theorem names_affine_warp (l : Landmarks) (w : Mat23) :
    Landmarks.names (Landmarks.affine_warp l w) = Landmarks.names l := by
  simp [Landmarks.names, Landmarks.affine_warp, List.map_map]

/-- Characterization of a successful re-stacking. -/
theorem from_single_landmarks_ok (l out : Landmarks)
    (h : Landmarks.from_single_landmarks l = .ok out) : out = l ∧ l ≠ [] := by
  unfold Landmarks.from_single_landmarks at h
  by_cases he : l.isEmpty
  · rw [if_pos he] at h
    exact absurd h (by simp)
  · rw [if_neg he] at h
    refine ⟨(Except.ok.inj h).symm, ?_⟩
    simpa [List.isEmpty_iff] using he

/-- A successful `_align` call on a pairing with a nonempty target and
length-matched reference returns the least-squares warp. -/
theorem alignPair_ok (pair : Pairing) (hne : pair.target ≠ [])
    (hlen : pair.reference.length = pair.target.length) :
    alignPair pair = .ok (warpOf pair) := by
  have hrne : pair.reference ≠ [] := by
    intro hc
    rw [hc] at hlen
    exact hne (List.length_eq_zero.mp hlen.symm)
  unfold alignPair Landmarks.xy
  rw [if_neg (by simpa [List.isEmpty_iff] using hrne),
      if_neg (by simpa [List.isEmpty_iff] using hne)]
  show Affine.estimate _ _ = _
  unfold Affine.estimate toXYArr
  rw [if_neg (by simp [hlen]), if_neg (by simp), if_neg (by simp [Nat.mul_comm])]
  unfold warpOf
  simp only [List.map_map]
  rfl

/-- C2 (amended): loading a written alignment table reproduces each row with
every matrix component rounded to binary32 (the `np.float32` array allocated
by `Alignment.from_dict`) and the separate flag reproduced exactly; the
round trip is the identity exactly on alignments whose 12 components are all
binary32-representable. -/
theorem alignment_table_roundtrip_float32 (tab : List Alignment) :
    load_alignment_table (write_alignment_table tab) = tab.map f32align
    ∧ ((∀ a ∈ tab, f32align a = a) →
        load_alignment_table (write_alignment_table tab) = tab) := by
  have h1 : load_alignment_table (write_alignment_table tab) = tab.map f32align := by
    unfold load_alignment_table write_alignment_table
    rw [List.map_map]
    rfl
  refine ⟨h1, fun hall => ?_⟩
  rw [h1]
  calc tab.map f32align = tab.map id := List.map_congr_left hall
    _ = tab := List.map_id tab

/-- C2 witness: a table whose entries are binary32-representable (0 and 1)
round-trips exactly. -/
theorem alignment_table_roundtrip_float32_id :
    load_alignment_table (write_alignment_table
      [⟨⟨0, 1, 0, 1, 0, 0⟩, ⟨0, 0, 1, 0, 1, 0⟩, true⟩])
      = [⟨⟨0, 1, 0, 1, 0, 0⟩, ⟨0, 0, 1, 0, 1, 0⟩, true⟩] :=
  (alignment_table_roundtrip_float32
    [⟨⟨0, 1, 0, 1, 0, 0⟩, ⟨0, 0, 1, 0, 1, 0⟩, true⟩]).2 (by decide)

/-- C2 counterexample: the binary64 value of the literal `0.1`
(3602879701896397 / 2^55) is not binary32-representable, so an alignment
holding it does not survive the table round trip bit-for-bit. -/
theorem alignment_table_roundtrip_not_exact :
    load_alignment_table (write_alignment_table
      [⟨⟨3602879701896397 / 2 ^ 55, 0, 0, 0, 1, 0⟩, ⟨1, 0, 0, 0, 1, 0⟩, false⟩])
      ≠ [⟨⟨3602879701896397 / 2 ^ 55, 0, 0, 0, 1, 0⟩, ⟨1, 0, 0, 0, 1, 0⟩, false⟩] := by
  decide

/-- Inverting and re-applying an invertible affine matrix restores every
point. -/
theorem applyPt_invert (m : Mat23) (hdet : m.xx * m.yy - m.xy * m.yx ≠ 0)
    (pt : ℚ × ℚ) : applyPt (Affine.invert m) (applyPt m pt) = pt := by
  obtain ⟨px, py⟩ := pt
  simp only [applyPt, Affine.invert]
  rw [if_neg hdet]
  apply Prod.ext
  · show (_ : ℚ) = px
    field_simp
    ring
  · show (_ : ℚ) = py
    field_simp
    ring

/-- C4 (amended): inverting a hemisphere-separate alignment fails — with
`ValueError` (the operation the spec's taxonomy labels
`UnsupportedOperationError`; no class of that name exists in the code) — and
inverting a non-separate alignment succeeds, returning the alignment built
from the OpenCV affine inverse of the shared matrix, which undoes the
original on every point whenever that matrix is invertible. -/
theorem invert_behavior (a : Alignment) :
    (a.separate = true →
      Alignment.invert a = .error (.valueError
        "inverting separate-hemispheres alignment is not supporteduse `separate_sides=True` when performing alignment"))
    ∧ (a.separate = false →
      Alignment.invert a = .ok ⟨Affine.invert a.left, Affine.invert a.left, false⟩
      ∧ (a.left.xx * a.left.yy - a.left.xy * a.left.yx ≠ 0 →
          ∀ pt : ℚ × ℚ, applyPt (Affine.invert a.left) (applyPt a.left pt) = pt)) := by
  constructor
  · intro h
    simp [Alignment.invert, h]
  · intro h
    refine ⟨by simp [Alignment.invert, h], fun hdet pt => applyPt_invert a.left hdet pt⟩

/-- C4 witness: a separate alignment fails with the `ValueError`, and the
inverse of the non-separate doubling alignment restores the point (3, 5). -/
theorem invert_behavior_concrete :
    Alignment.invert ⟨⟨1, 0, 0, 0, 1, 0⟩, ⟨1, 0, 0, 0, 1, 0⟩, true⟩
      = .error (.valueError
        "inverting separate-hemispheres alignment is not supporteduse `separate_sides=True` when performing alignment")
    ∧ applyPt (Affine.invert ⟨2, 0, 0, 0, 2, 0⟩) (applyPt ⟨2, 0, 0, 0, 2, 0⟩ (3, 5)) = (3, 5) :=
  ⟨(invert_behavior ⟨⟨1, 0, 0, 0, 1, 0⟩, ⟨1, 0, 0, 0, 1, 0⟩, true⟩).1 rfl,
   ((invert_behavior ⟨⟨2, 0, 0, 0, 2, 0⟩, ⟨2, 0, 0, 0, 2, 0⟩, false⟩).2 rfl).2 (by decide) (3, 5)⟩

/-- C4 counterexample: on the non-separate all-zero alignment `invert`
succeeds (OpenCV maps a singular matrix to the zero inverse), but the
returned alignment does not undo the original: the point (1, 1) is not
restored.  So `invert` does not return "the undoing alignment" for every
non-separate alignment. -/
theorem invert_zero_alignment_not_undoing :
    Alignment.invert ⟨⟨0, 0, 0, 0, 0, 0⟩, ⟨0, 0, 0, 0, 0, 0⟩, false⟩
      = .ok ⟨⟨0, 0, 0, 0, 0, 0⟩, ⟨0, 0, 0, 0, 0, 0⟩, false⟩
    ∧ applyPt ⟨0, 0, 0, 0, 0, 0⟩ (applyPt ⟨0, 0, 0, 0, 0, 0⟩ (1, 1)) ≠ (1, 1) := by
  decide

/-- C8 (amended): `affine.estimate` fails with `AssertionError` when the
point counts differ, with the NumPy reshape `ValueError` when a nonempty
`src` is not 2-wide, and with `LinAlgError` when `src` is 2-wide but a
nonempty `dst` is not; with both arrays 2-wide (any N, in particular N ≥ 3)
it succeeds with the least-squares estimate.  (The spec's `DataShapeError` is
the taxonomy label for these shape failures; no such class exists in the
code.) -/
theorem estimate_shape_errors (src dst : NDArr) :
    (src.data.length ≠ dst.data.length →
      Affine.estimate src dst = .error .assertionError)
    ∧ (src.data.length = dst.data.length → src.data ≠ [] → src.cols ≠ 2 →
      Affine.estimate src dst = .error (.valueError "cannot reshape array"))
    ∧ (src.data.length = dst.data.length → src.data ≠ [] → src.cols = 2 →
        dst.cols ≠ 2 → Affine.estimate src dst = .error .linAlgError)
    ∧ (src.data.length = dst.data.length → src.cols = 2 → dst.cols = 2 →
      Affine.estimate src dst
        = .ok (Affine.lstsq (src.data.map (fun r => (r.getD 0 0, r.getD 1 0)))
                            (dst.data.map (fun r => (r.getD 0 0, r.getD 1 0))))) := by
  refine ⟨fun h => ?_, fun h1 h2 h3 => ?_, fun h1 h2 h3 h4 => ?_, fun h1 h2 h3 => ?_⟩
  · unfold Affine.estimate
    rw [if_pos (fun hc => h hc.symm)]
  · unfold Affine.estimate
    have hn : src.data.length ≠ 0 := by simpa [List.length_eq_zero] using h2
    rw [if_neg (by simp [h1]), if_pos (by simp [hn, h3])]
  · unfold Affine.estimate
    have hn : src.data.length ≠ 0 := by simpa [List.length_eq_zero] using h2
    rw [if_neg (by simp [h1]), if_neg (by simp [h3]),
        if_pos (show ¬(src.data.length * dst.cols = 2 * src.data.length) from
          fun hc => h4 (Nat.eq_of_mul_eq_mul_left (Nat.pos_of_ne_zero hn)
            (by rw [hc, Nat.mul_comm])))]
  · unfold Affine.estimate
    rw [if_neg (by simp [h1]), if_neg (by simp [h2]),
        if_neg (by simp [h3, Nat.mul_comm])]

/-- C8 witness: a 2-vs-3-point call hits the assertion, a 3-wide source hits
the reshape error, and the translation example from the spec (three points,
both arrays 2-wide) succeeds. -/
theorem estimate_shape_errors_concrete :
    Affine.estimate ⟨2, [[0, 0], [1, 0]]⟩ ⟨2, [[1, 1], [2, 1], [1, 2]]⟩
      = .error .assertionError
    ∧ Affine.estimate ⟨3, [[0, 0, 0], [1, 0, 0], [0, 1, 0]]⟩ ⟨2, [[1, 1], [2, 1], [1, 2]]⟩
      = .error (.valueError "cannot reshape array")
    ∧ Affine.estimate ⟨2, [[0, 0], [1, 0], [0, 1]]⟩ ⟨2, [[1, 1], [2, 1], [1, 2]]⟩
      = .ok (Affine.lstsq [(0, 0), (1, 0), (0, 1)] [(1, 1), (2, 1), (1, 2)]) :=
  ⟨(estimate_shape_errors ⟨2, [[0, 0], [1, 0]]⟩ ⟨2, [[1, 1], [2, 1], [1, 2]]⟩).1 (by decide),
   (estimate_shape_errors ⟨3, [[0, 0, 0], [1, 0, 0], [0, 1, 0]]⟩
      ⟨2, [[1, 1], [2, 1], [1, 2]]⟩).2.1 (by decide) (by decide) (by decide),
   (estimate_shape_errors ⟨2, [[0, 0], [1, 0], [0, 1]]⟩
      ⟨2, [[1, 1], [2, 1], [1, 2]]⟩).2.2.2 rfl rfl rfl⟩

/-- C8 counterexample: an empty 5-wide array pair is not "2-dimensional per
point", yet `affine.estimate` succeeds on it (a NumPy reshape with zero
elements accepts any shape), returning the degenerate zero estimate instead
of failing. -/
theorem estimate_empty_wide_array_succeeds :
    Affine.estimate ⟨5, []⟩ ⟨5, []⟩ = .ok ⟨0, 0, 0, 0, 0, 0⟩
    ∧ (⟨5, []⟩ : NDArr).cols ≠ 2 := by
  decide

/-- C3 (code bug): `to_hdf` writes every ROI dataset via
`roi._write_hdf(out, ...)` — rooted at the file, not at the `rois` group
whose `names` attribute indexes the set — so `load_hdf`, which looks each
name up inside the `rois` group, raises `KeyError` on the round trip of any
nonempty ROISet: shown for a ROISet with one hemisphere-agnostic ROI (the
dataset lands at the file root) and for one with a sided ROI (the dataset
lands under a root-level `left` group). -/
theorem roi_set_hdf_roundtrip_key_error :
    ROISet.load_hdf (ROISet.to_hdf ⟨"img", 0, 1, [⟨"outline", "both", -1, "d", [[255]]⟩]⟩)
      = .error (.keyError "outline")
    ∧ ROISet.load_hdf (ROISet.to_hdf ⟨"img", 0, 1, [⟨"V1", "left", 5, "d", [[1]]⟩]⟩)
      = .error (.keyError "V1") := by
  decide

/-- C5 (code bug): `generate_rois_batch` has no per-row exception handling:
with a first metadata row lacking the `Width` column the whole batch aborts
with that row's `KeyError`, producing no ROISet at all — although the second
row on its own projects successfully. -/
theorem generate_rois_batch_aborts_on_row_failure :
    generate_rois_batch (fun _ m => m) (fun _ _ m => m)
      [⟨⟨1, 0, 0, 0, 1, 0⟩, ⟨1, 0, 0, 0, 1, 0⟩, false⟩,
       ⟨⟨1, 0, 0, 0, 1, 0⟩, ⟨1, 0, 0, 0, 1, 0⟩, false⟩]
      [⟨some "img", some 0, some 2, none, some 512⟩,
       ⟨some "img", some 1, some 2, some 4, some 4⟩]
      ⟨"__reference__", -1, -1, []⟩
      ⟨"__reference__", -1, -1,
       [⟨"outline", "left", -1, "d", [[255]]⟩, ⟨"outline", "right", -1, "d", [[255]]⟩]⟩
      true
      = .error (.keyError "Width")
    ∧ generate_rois_single (fun _ m => m) (fun _ _ m => m)
      ⟨⟨1, 0, 0, 0, 1, 0⟩, ⟨1, 0, 0, 0, 1, 0⟩, false⟩
      ⟨some "img", some 1, some 2, some 4, some 4⟩
      ⟨"__reference__", -1, -1, []⟩
      ⟨"__reference__", -1, -1,
       [⟨"outline", "left", -1, "d", [[255]]⟩, ⟨"outline", "right", -1, "d", [[255]]⟩]⟩
      true
      = .ok ⟨"img", 1, 2,
          [⟨"outline", "both", -1, "the expected outline of the brain for this ROI set", [[254]]⟩,
           ⟨"outline", "left", -1, "d", [[255]]⟩,
           ⟨"outline", "right", -1, "d", [[255]]⟩]⟩ := by
  exact ⟨by decide, by decide⟩

/-- C7 (amended): whenever at least one target landmark clears the
threshold, the validator returns the pairing of exactly the zipped pairs
whose target confidence is strictly above the threshold, in input order, and
the two sides of any returned pairing have equal length. -/
theorem validate_landmarks_filter (target reference : Landmarks) (thr : Option ℚ)
    (hs : (target.zip reference).filter
        (fun tr => decide (thr.getD LANDMARK_LIKELIHOOD_THRESHOLD < tr.1.p)) ≠ []) :
    validate_landmarks target reference thr
      = .ok ⟨((target.zip reference).filter
              (fun tr => decide (thr.getD LANDMARK_LIKELIHOOD_THRESHOLD < tr.1.p))).map Prod.fst,
             ((target.zip reference).filter
              (fun tr => decide (thr.getD LANDMARK_LIKELIHOOD_THRESHOLD < tr.1.p))).map Prod.snd⟩
    ∧ ∀ P, validate_landmarks target reference thr = .ok P →
        P.target.length = P.reference.length := by
  have hmap : ∀ g : Landmark × Landmark → Landmark,
      ((target.zip reference).filter
        (fun tr => decide (thr.getD LANDMARK_LIKELIHOOD_THRESHOLD < tr.1.p))).map g ≠ [] := by
    intro g
    simpa [List.map_eq_nil_iff] using hs
  have hstack : ∀ l : Landmarks, l ≠ [] → Landmarks.from_single_landmarks l = .ok l := by
    intro l hl
    unfold Landmarks.from_single_landmarks
    rw [if_neg (by simpa [List.isEmpty_iff] using hl)]
  have hmain : validate_landmarks target reference thr
      = .ok ⟨((target.zip reference).filter
              (fun tr => decide (thr.getD LANDMARK_LIKELIHOOD_THRESHOLD < tr.1.p))).map Prod.fst,
             ((target.zip reference).filter
              (fun tr => decide (thr.getD LANDMARK_LIKELIHOOD_THRESHOLD < tr.1.p))).map Prod.snd⟩ := by
    simp only [validate_landmarks]
    rw [hstack _ (hmap Prod.fst), hstack _ (hmap Prod.snd)]
    rfl
  refine ⟨hmain, fun P hP => ?_⟩
  rw [hmain] at hP
  cases Except.ok.inj hP
  simp [Pairing.len]

/-- C7 witness: with the default threshold 0.9999, the landmark with
confidence 0.99995 is kept, the one with 0.9998 is dropped, and the
surviving pair keeps its index alignment. -/
theorem validate_landmarks_filter_default_threshold :
    validate_landmarks
      [⟨"bregma", 1, 2, 99995 / 100000⟩, ⟨"lambda", 3, 4, 9998 / 10000⟩]
      [⟨"bregma", 256, 256, 1⟩, ⟨"lambda", 256, 428, 1⟩] none
      = .ok ⟨[⟨"bregma", 1, 2, 99995 / 100000⟩], [⟨"bregma", 256, 256, 1⟩]⟩ := by
  rw [(validate_landmarks_filter
    [⟨"bregma", 1, 2, 99995 / 100000⟩, ⟨"lambda", 3, 4, 9998 / 10000⟩]
    [⟨"bregma", 256, 256, 1⟩, ⟨"lambda", 256, 428, 1⟩] none (by decide)).1]
  decide

/-- C7 counterexample: when no landmark clears the threshold the validator
does not produce the (empty) pairing the claim describes — `np.stack` on the
empty survivor list raises `ValueError`. -/
theorem validate_landmarks_empty_survivors_error :
    validate_landmarks [⟨"bregma", 1, 2, 1 / 2⟩] [⟨"bregma", 256, 256, 1⟩] none
      = .error (.valueError "need at least one array to stack") := by
  decide

/-- C1: on a validated pairing (index-aligned name sequences and at least
one surviving pair — by the C7 analysis the validator cannot emit an empty
pairing) with `separate_sides` left unspecified, the estimator returns the
hemisphere-separate alignment — left estimated from the left-plus-middle
restriction, right from the right-plus-middle restriction, `separate = true`
— iff both restrictions keep more than 2 correspondences after excluding
middle names; otherwise it returns the joint alignment estimated once from
the full pairing, duplicated on both sides with `separate = false`. -/
theorem estimate_warp_matrix_auto_split (p : Pairing)
    (hnames : Landmarks.names p.target = Landmarks.names p.reference)
    (hne : p.target ≠ []) :
    (2 < (Pairing.without_middle (Pairing.left p)).len ∧
        2 < (Pairing.without_middle (Pairing.right p)).len →
      estimate_warp_matrix p none
        = .ok ⟨warpOf (Pairing.left p), warpOf (Pairing.right p), true⟩)
    ∧ (¬(2 < (Pairing.without_middle (Pairing.left p)).len ∧
        2 < (Pairing.without_middle (Pairing.right p)).len) →
      estimate_warp_matrix p none = .ok ⟨warpOf p, warpOf p, false⟩)
    ∧ ∀ al, estimate_warp_matrix p none = .ok al →
        (al.separate = true ↔
          (2 < (Pairing.without_middle (Pairing.left p)).len ∧
           2 < (Pairing.without_middle (Pairing.right p)).len)) := by
  have hlen : p.reference.length = p.target.length := by
    have hc := congrArg List.length hnames
    simpa [Landmarks.names] using hc.symm
  have hTne : ∀ q : Pairing, 2 < q.without_middle.len → q.target ≠ [] := by
    intro q hq hqt
    simp [Pairing.len, Pairing.without_middle, Pairing.ordered, hqt, ordered_nil] at hq
  have hsub : ∀ keys : List String,
      (Landmarks.ordered p.reference keys).length
        = (Landmarks.ordered p.target keys).length :=
    fun keys => length_ordered_congr p.reference p.target keys hnames.symm
  have hsep : 2 < (Pairing.without_middle (Pairing.left p)).len ∧
      2 < (Pairing.without_middle (Pairing.right p)).len →
      estimate_warp_matrix p none
        = .ok ⟨warpOf (Pairing.left p), warpOf (Pairing.right p), true⟩ := by
    intro hc
    simp only [estimate_warp_matrix, Option.getD_none]
    rw [if_pos (decide_eq_true hc),
        alignPair_ok (Pairing.left p) (hTne _ hc.1)
          (hsub (LEFT_LANDMARK_NAMES ++ MIDDLE_LANDMARK_NAMES)),
        alignPair_ok (Pairing.right p) (hTne _ hc.2)
          (hsub (RIGHT_LANDMARK_NAMES ++ MIDDLE_LANDMARK_NAMES))]
    rfl
  have hjoint : ¬(2 < (Pairing.without_middle (Pairing.left p)).len ∧
      2 < (Pairing.without_middle (Pairing.right p)).len) →
      estimate_warp_matrix p none = .ok ⟨warpOf p, warpOf p, false⟩ := by
    intro hc
    simp only [estimate_warp_matrix, Option.getD_none]
    rw [if_neg (fun hd => hc (of_decide_eq_true hd)), alignPair_ok p hne hlen]
    rfl
  refine ⟨hsep, hjoint, ?_⟩
  intro al hal
  by_cases hc : 2 < (Pairing.without_middle (Pairing.left p)).len ∧
      2 < (Pairing.without_middle (Pairing.right p)).len
  · rw [hsep hc] at hal
    cases Except.ok.inj hal
    simpa using hc
  · rw [hjoint hc] at hal
    cases Except.ok.inj hal
    simpa using hc

/-- C1 witness: a validated pairing with a single non-middle point per side
(matching detections of the `left` and `right` landmarks) falls below the
threshold on both sides, so automatic selection estimates one joint
transform with `separate = false`. -/
theorem estimate_warp_matrix_auto_split_single_sided :
    estimate_warp_matrix
      ⟨[⟨"left", 0, 0, 1⟩, ⟨"right", 1, 1, 1⟩],
       [⟨"left", 102, 148, 1⟩, ⟨"right", 410, 148, 1⟩]⟩ none
      = .ok ⟨warpOf ⟨[⟨"left", 0, 0, 1⟩, ⟨"right", 1, 1, 1⟩],
                     [⟨"left", 102, 148, 1⟩, ⟨"right", 410, 148, 1⟩]⟩,
             warpOf ⟨[⟨"left", 0, 0, 1⟩, ⟨"right", 1, 1, 1⟩],
                     [⟨"left", 102, 148, 1⟩, ⟨"right", 410, 148, 1⟩]⟩,
             false⟩ :=
  (estimate_warp_matrix_auto_split
    ⟨[⟨"left", 0, 0, 1⟩, ⟨"right", 1, 1, 1⟩],
     [⟨"left", 102, 148, 1⟩, ⟨"right", 410, 148, 1⟩]⟩
    (by decide) (by decide)).2.1 (by decide)

/-- The averaged double warp of the middle subset is the single map sending
each middle landmark to the coordinate-wise mean of its two warped images
(with the likelihood untouched, since the source averages the likelihood
column of two copies of itself). -/
theorem middle_avg_eq (m : Landmarks) (wl wr : Mat23) :
    ((Landmarks.affine_warp m wl).zip (Landmarks.affine_warp m wr)).map (fun uv =>
        (⟨uv.1.name, (uv.1.x + uv.2.x) / 2, (uv.1.y + uv.2.y) / 2,
          (uv.1.p + uv.2.p) / 2⟩ : Landmark))
      = m.map (fun q =>
          ⟨q.name, ((applyPt wl (q.x, q.y)).1 + (applyPt wr (q.x, q.y)).1) / 2,
           ((applyPt wl (q.x, q.y)).2 + (applyPt wr (q.x, q.y)).2) / 2, q.p⟩) := by
  unfold Landmarks.affine_warp
  rw [List.zip_map', List.map_map]
  apply List.map_congr_left
  intro q _
  simp [Function.comp, add_self_div_two]

/-- Concatenating landmark sets concatenates their names. -/
theorem names_append (u v : Landmarks) :
    Landmarks.names (u ++ v) = Landmarks.names u ++ Landmarks.names v := by
  simp [Landmarks.names]

/-- The averaged middle map keeps the landmark names. -/
theorem names_middle_avg (m : Landmarks) (wl wr : Mat23) :
    Landmarks.names (m.map (fun q =>
      (⟨q.name, ((applyPt wl (q.x, q.y)).1 + (applyPt wr (q.x, q.y)).1) / 2,
       ((applyPt wl (q.x, q.y)).2 + (applyPt wr (q.x, q.y)).2) / 2, q.p⟩ : Landmark)))
      = Landmarks.names m := by
  simp [Landmarks.names, List.map_map, Function.comp]

/-- C6: whenever `warp_points` returns a landmark set, the non-middle left
subset was warped through the left matrix and the non-middle right subset
through the right matrix; each middle landmark was warped through both
matrices and the two images averaged coordinate-wise when `separate = true`,
and warped exactly once through the (single shared) left matrix when
`separate = false`; the output is ordered left, middle, right; and the
concrete blend of the spec — left warp (2,2), right warp (4,4) — yields
(3,3). -/
theorem warp_points_midline_blend (a : Alignment) (lm : Landmarks) (out : Landmarks)
    (h : Alignment.warp_points a lm = .ok out) :
    (a.separate = true →
      out = Landmarks.affine_warp (Landmarks.without_middle (Landmarks.left lm)) a.left
        ++ (Landmarks.middle lm).map (fun q =>
              ⟨q.name, ((applyPt a.left (q.x, q.y)).1 + (applyPt a.right (q.x, q.y)).1) / 2,
               ((applyPt a.left (q.x, q.y)).2 + (applyPt a.right (q.x, q.y)).2) / 2, q.p⟩)
        ++ Landmarks.affine_warp (Landmarks.without_middle (Landmarks.right lm)) a.right)
    ∧ (a.separate = false →
      out = Landmarks.affine_warp (Landmarks.without_middle (Landmarks.left lm)) a.left
        ++ Landmarks.affine_warp (Landmarks.middle lm) a.left
        ++ Landmarks.affine_warp (Landmarks.without_middle (Landmarks.right lm)) a.right)
    ∧ Landmarks.names out
        = Landmarks.names (Landmarks.without_middle (Landmarks.left lm))
          ++ Landmarks.names (Landmarks.middle lm)
          ++ Landmarks.names (Landmarks.without_middle (Landmarks.right lm))
    ∧ Alignment.warp_points ⟨⟨1, 0, 2, 0, 1, 2⟩, ⟨1, 0, 4, 0, 1, 4⟩, true⟩ [⟨"bregma", 0, 0, 1⟩]
        = .ok [⟨"bregma", 3, 3, 1⟩] := by
  simp only [Alignment.warp_points] at h
  have hout := (from_single_landmarks_ok _ _ h).1
  refine ⟨?_, ?_, ?_, by decide⟩
  · intro hsepv
    rw [hout]
    simp only [hsepv, if_true]
    rw [middle_avg_eq]
  · intro hsepv
    rw [hout]
    simp only [hsepv, Bool.false_eq_true, if_false]
  · rw [hout]
    cases hsepv : a.separate
    · simp only [hsepv, Bool.false_eq_true, if_false]
      rw [names_append, names_append, names_affine_warp, names_affine_warp,
          names_affine_warp]
    · simp only [hsepv, if_true]
      rw [middle_avg_eq, names_append, names_append, names_affine_warp,
          names_affine_warp, names_middle_avg]

/-- C6 witness: at the concrete separate alignment translating by (2,2) on
the left and (4,4) on the right, the midline landmark at the origin is
blended to (3,3). -/
theorem warp_points_midline_blend_concrete :
    Alignment.warp_points ⟨⟨1, 0, 2, 0, 1, 2⟩, ⟨1, 0, 4, 0, 1, 4⟩, true⟩ [⟨"bregma", 0, 0, 1⟩]
      = .ok [⟨"bregma", 3, 3, 1⟩] :=
  (warp_points_midline_blend ⟨⟨1, 0, 2, 0, 1, 2⟩, ⟨1, 0, 4, 0, 1, 4⟩, true⟩
    [⟨"bregma", 0, 0, 1⟩] [⟨"bregma", 3, 3, 1⟩] (by decide)).2.2.2

/-- Names surviving `without_middle` were names of the original set. -/
theorem mem_names_without_middle (q : Landmarks) (n : String)
    (h : n ∈ Landmarks.names (Landmarks.without_middle q)) :
    n ∈ Landmarks.names q := by
  unfold Landmarks.without_middle at h
  exact (List.mem_filter.mp (mem_names_ordered q _ n h)).1

/-- C10 (amended): whenever `warp_points` returns a landmark set, every name
in it belongs to the fixed 9-name taxonomy, and any input landmark with a
name outside the taxonomy is absent from the output (dropped without being
warped); when no input landmark carries a taxonomy name the call instead
raises `ValueError` (see the counterexample), so the drop is silent only
when some taxonomy landmark is present. -/
theorem warp_points_taxonomy_only (a : Alignment) (lm : Landmarks) (out : Landmarks)
    (h : Alignment.warp_points a lm = .ok out) :
    (∀ n ∈ Landmarks.names out,
      n ∈ LEFT_LANDMARK_NAMES ++ MIDDLE_LANDMARK_NAMES ++ RIGHT_LANDMARK_NAMES)
    ∧ ∀ x ∈ lm,
        x.name ∉ LEFT_LANDMARK_NAMES ++ MIDDLE_LANDMARK_NAMES ++ RIGHT_LANDMARK_NAMES →
        x.name ∉ Landmarks.names out := by
  simp only [Alignment.warp_points] at h
  have hout := (from_single_landmarks_ok _ _ h).1
  have hmain : ∀ n ∈ Landmarks.names out,
      n ∈ LEFT_LANDMARK_NAMES ++ MIDDLE_LANDMARK_NAMES ++ RIGHT_LANDMARK_NAMES := by
    intro n hn
    rw [hout] at hn
    have happ : ∀ u v : Landmarks,
        Landmarks.names (u ++ v) = Landmarks.names u ++ Landmarks.names v := by
      intro u v
      simp [Landmarks.names]
    rw [happ, happ] at hn
    rcases List.mem_append.mp hn with hlm | hr
    · rcases List.mem_append.mp hlm with hl | hm
      · rw [names_affine_warp] at hl
        have h1 := mem_names_ordered _ _ _ (mem_names_without_middle _ _ hl)
        simp only [List.mem_append] at h1 ⊢
        tauto
      · have hm2 : n ∈ Landmarks.names (Landmarks.middle lm) := by
          cases hsepv : a.separate
          · rw [hsepv] at hm
            simp only [Bool.false_eq_true, if_false] at hm
            rwa [names_affine_warp] at hm
          · rw [hsepv] at hm
            simp only [if_true] at hm
            rw [middle_avg_eq] at hm
            simpa [Landmarks.names, List.map_map, Function.comp] using hm
        have h1 := mem_names_ordered _ _ _ hm2
        simp only [List.mem_append] at h1 ⊢
        tauto
    · rw [names_affine_warp] at hr
      have h1 := mem_names_ordered _ _ _ (mem_names_without_middle _ _ hr)
      simp only [List.mem_append] at h1 ⊢
      tauto
  refine ⟨hmain, fun x _ hx hmem => hx (hmain x.name hmem)⟩

/-- C10 witness: an output produced from a `bregma` detection stays inside
the taxonomy. -/
theorem warp_points_taxonomy_only_concrete :
    ("bregma" : String) ∈ LEFT_LANDMARK_NAMES ++ MIDDLE_LANDMARK_NAMES ++ RIGHT_LANDMARK_NAMES :=
  (warp_points_taxonomy_only ⟨⟨1, 0, 0, 0, 1, 0⟩, ⟨1, 0, 0, 0, 1, 0⟩, false⟩
    [⟨"bregma", 5, 6, 1⟩] [⟨"bregma", 5, 6, 1⟩] (by decide)).1 "bregma" (by decide)

/-- C10 counterexample: a landmark set holding only the foreign name
`snout` is not silently dropped — `warp_points` raises `ValueError` from
`np.stack` on the three empty parts, producing no output at all. -/
theorem warp_points_all_foreign_error :
    Alignment.warp_points ⟨⟨1, 0, 0, 0, 1, 0⟩, ⟨1, 0, 0, 0, 1, 0⟩, false⟩ [⟨"snout", 1, 2, 1⟩]
      = .error (.valueError "need at least one array to stack") := by
  decide

/-- Destructuring of a successful monadic bind over `Except`. -/
theorem bind_ok_destruct {ε α β : Type} (e : Except ε α) (f : α → Except ε β) (b : β)
    (h : e >>= f = .ok b) : ∃ a, e = .ok a ∧ f a = .ok b := by
  cases e with
  | error err => simp [Bind.bind, Except.bind] at h
  | ok a => exact ⟨a, rfl, by simpa [Bind.bind, Except.bind] using h⟩

/-- Successful Python list indexing returns the element at the index. -/
theorem pyGet_ok {α : Type} (l : List α) (i : ℕ) (v : α) (h : pyGet l i = .ok v) :
    l.get? i = some v := by
  unfold pyGet at h
  rw [List.get?_eq_getElem?]
  cases hg : l[i]? with
  | none => simp [hg] at h
  | some w =>
    simp [hg] at h
    simp [hg, h]

/-- An index with a value is inside the list. -/
theorem get?_some_lt {α : Type} (l : List α) (i : ℕ) (v : α) (h : l.get? i = some v) :
    i < l.length := by
  induction l generalizing i with
  | nil => simp [List.get?] at h
  | cons x xs ih =>
    cases i with
    | zero => simp
    | succ j => simpa using ih j (by simpa using h)

/-- Indexing a concatenation inside the first part. -/
theorem get?_append_left {α : Type} (l1 l2 : List α) (i : ℕ) (hi : i < l1.length) :
    (l1 ++ l2).get? i = l1.get? i := by
  induction l1 generalizing i with
  | nil => simp at hi
  | cons x xs ih =>
    cases i with
    | zero => rfl
    | succ j => exact ih j (Nat.lt_of_succ_lt_succ (by simpa using hi))

/-- C9: whenever single-frame ROI projection returns a set, its first ROI is
the merged `outline` with hemisphere `both`, no identifier, and a mask that
is the element-wise uint8 sum — addition mod 256 — of the masks of the two
warped hemisphere outlines sitting at positions 1 and 2 of the output; two
255 pixels wrap to 254 rather than forming a boolean union; and every pixel
of the reference hemisphere outlines is encoded 0 or 255. -/
theorem merged_outline_uint8_sum (warpFn : Mat23 → Mask → Mask)
    (resizeFn : ℤ × ℤ → Interp → Mask → Mask) (a : Alignment) (meta : MetaRow)
    (reference outline : ROISet) (resize : Bool) (out : ROISet)
    (h : generate_rois_single warpFn resizeFn a meta reference outline resize = .ok out) :
    (∀ m0 m1 : Mask,
      (out.rois.get? 1).map ROI.mask = some m0 →
      (out.rois.get? 2).map ROI.mask = some m1 →
      out.rois.get? 0 = some ⟨"outline", "both", -1,
        "the expected outline of the brain for this ROI set", maskAddU8 m0 m1⟩)
    ∧ maskAddU8 [[255]] [[255]] = [[254]]
    ∧ (∀ lo ro : List (List ℚ), ∀ roi ∈ (load_reference_outlines lo ro).rois,
        ∀ row ∈ roi.mask, ∀ v ∈ row, v = 0 ∨ v = 255) := by
  refine ⟨?_, by decide, ?_⟩
  · simp only [generate_rois_single] at h
    obtain ⟨shape, hS, h⟩ := bind_ok_destruct _ _ _ h
    obtain ⟨wOut, hW, h⟩ := bind_ok_destruct _ _ _ h
    obtain ⟨wRois, hR, h⟩ := bind_ok_destruct _ _ _ h
    obtain ⟨o0, h0, h⟩ := bind_ok_destruct _ _ _ h
    obtain ⟨o1, h1, h⟩ := bind_ok_destruct _ _ _ h
    obtain ⟨inm, hI, h⟩ := bind_ok_destruct _ _ _ h
    obtain ⟨fr, hF, h⟩ := bind_ok_destruct _ _ _ h
    obtain ⟨tf, hT, h⟩ := bind_ok_destruct _ _ _ h
    cases Except.ok.inj h
    intro m0 m1 hm0 hm1
    have hg0 := pyGet_ok _ _ _ h0
    have hg1 := pyGet_ok _ _ _ h1
    have hlt1 : 1 < wOut.length := get?_some_lt _ _ _ hg1
    have he1 : (ROISet.mk inm fr tf
        (⟨"outline", "both", -1, "the expected outline of the brain for this ROI set",
          maskAddU8 o0.mask o1.mask⟩ :: (wOut ++ wRois))).rois.get? 1 = some o0 := by
      show (wOut ++ wRois).get? 0 = some o0
      rw [get?_append_left wOut wRois 0 (Nat.lt_of_le_of_lt (Nat.zero_le 1) hlt1)]
      exact hg0
    have he2 : (ROISet.mk inm fr tf
        (⟨"outline", "both", -1, "the expected outline of the brain for this ROI set",
          maskAddU8 o0.mask o1.mask⟩ :: (wOut ++ wRois))).rois.get? 2 = some o1 := by
      show (wOut ++ wRois).get? 1 = some o1
      rw [get?_append_left wOut wRois 1 hlt1]
      exact hg1
    rw [he1] at hm0
    rw [he2] at hm1
    have hm0v : o0.mask = m0 := by simpa using hm0
    have hm1v : o1.mask = m1 := by simpa using hm1
    rw [← hm0v, ← hm1v]
    rfl
  · intro lo ro roi hroi row hrow v hv
    simp only [load_reference_outlines, List.mem_cons, List.not_mem_nil, or_false] at hroi
    rcases hroi with hroi | hroi <;>
      (subst hroi
       rcases List.mem_map.mp hrow with ⟨r0, _, rfl⟩
       rcases List.mem_map.mp hv with ⟨q, _, rfl⟩
       by_cases hq : 0 < q <;> simp [hq])

/-- C9 witness: at a concrete projection whose two warped hemisphere
outlines are the single pixel 255, the merged outline ROI holds their uint8
sum (the wrapped pixel 254). -/
theorem merged_outline_uint8_sum_concrete :
    (ROISet.mk "img" 1 2
      [⟨"outline", "both", -1, "the expected outline of the brain for this ROI set", [[254]]⟩,
       ⟨"outline", "left", -1, "d", [[255]]⟩,
       ⟨"outline", "right", -1, "d", [[255]]⟩]).rois.get? 0
      = some ⟨"outline", "both", -1,
        "the expected outline of the brain for this ROI set", maskAddU8 [[255]] [[255]]⟩ :=
  (merged_outline_uint8_sum (fun _ m => m) (fun _ _ m => m)
    ⟨⟨1, 0, 0, 0, 1, 0⟩, ⟨1, 0, 0, 0, 1, 0⟩, false⟩
    ⟨some "img", some 1, some 2, some 4, some 4⟩
    ⟨"__reference__", -1, -1, []⟩
    ⟨"__reference__", -1, -1,
     [⟨"outline", "left", -1, "d", [[255]]⟩, ⟨"outline", "right", -1, "d", [[255]]⟩]⟩
    true
    ⟨"img", 1, 2,
     [⟨"outline", "both", -1, "the expected outline of the brain for this ROI set", [[254]]⟩,
      ⟨"outline", "left", -1, "d", [[255]]⟩,
      ⟨"outline", "right", -1, "d", [[255]]⟩]⟩
    (by decide)).1 [[255]] [[255]] (by decide) (by decide)

end Mesoscaler
